import Mathlib

/-!
Verification of the CRUD-over-HTTP helper layer of the cookbook API
(`src/api/src`): query builder (`utils/queries.js`), schema helper
(`db.js`), entity-tag generator (`utils/generateETag.js`) and the
conditional-request CRUD handlers (`utils/routes.js`).

JavaScript objects that the code only iterates/looks up are embedded as
association lists `List (String × String)` in insertion order; `undefined`
is embedded as `none`; JavaScript truthiness of an optional string value
(`!!x`) is the `truthy` predicate below (absent or empty string is falsy).
The database collaborator is embedded as explicit parameters describing
the reply of each awaited call, together with flags recording whether a
call was issued.
-/

set_option autoImplicit false
set_option maxRecDepth 8192

/-- An entity (a table row) or any other JS object with string values:
an association list in key-insertion order. -/
abbrev Entity := List (String × String)

/-- First-match lookup in an association list (JS property access `o[k]`,
`undefined` when absent). -/
def lookupAssoc {α : Type} : List (String × α) → String → Option α
  | [], _ => none
  | (k, v) :: rest, key => if k == key then some v else lookupAssoc rest key

/-- JS property assignment `o[k] = v`: overwrites in place when the key
exists, otherwise appends (insertion order preserved). -/
def setAssoc {α : Type} (obj : List (String × α)) (k : String) (v : α) : List (String × α) :=
  if (obj.map (fun p => p.1)).contains k
  then obj.map (fun p => if p.1 == k then (k, v) else p)
  else obj ++ [(k, v)]

/-- lodash `omit(o, k)` for a single key: drops every pair with that key. -/
def removeAssoc {α : Type} (obj : List (String × α)) (k : String) : List (String × α) :=
  obj.filter (fun p => !(p.1 == k))

/-- JS truthiness of a possibly-undefined string: `undefined` and `""` are
falsy, every other string is truthy. -/
def truthy : Option String → Bool
  | none => false
  | some s => !(s == "")

/-- The whitespace characters trimmed by `String.prototype.trim` that can
occur in this code base. -/
def isWs (c : Char) : Bool :=
  c == ' ' || c == '\t' || c == '\n' || c == '\r'

/-- Trim of a character list: drop whitespace from both ends. -/
def trimList (l : List Char) : List Char :=
  ((l.dropWhile isWs).reverse.dropWhile isWs).reverse

/-- JS `s.trim()`. -/
def jsTrim (s : String) : String := ⟨trimList s.data⟩

/-- Value of a digit string (used by the `parseInt` model). -/
def digitsToNat (ds : List Char) : Nat :=
  ds.foldl (fun n c => n * 10 + (c.toNat - 48)) 0

/-- JS `parseInt(s, 10)`: skip leading whitespace, optional sign, then the
longest digit prefix; `none` stands for `NaN` (no digits found). -/
def parseIntStr (s : String) : Option Int :=
  let l := s.data.dropWhile isWs
  match l with
  | '-' :: r =>
    let ds := r.takeWhile Char.isDigit
    if ds.isEmpty then none else some (-(digitsToNat ds : Int))
  | '+' :: r =>
    let ds := r.takeWhile Char.isDigit
    if ds.isEmpty then none else some ((digitsToNat ds : Int))
  | _ =>
    let ds := l.takeWhile Char.isDigit
    if ds.isEmpty then none else some ((digitsToNat ds : Int))

/-- JS `parseInt(q, 10)` on a possibly-absent query parameter
(`parseInt(undefined, 10)` is `NaN`, embedded as `none`). -/
def parseIntJS : Option String → Option Int
  | none => none
  | some s => parseIntStr s

/-! ## constants.js -/

/-- Constant `META_FIELDS` from `constants.js`. -/
def META_FIELDS : List String := ["created_dt", "updated_dt"]

/-- Constant `SCHEMA_OMITTED_FIELDS` from `constants.js`. -/
def SCHEMA_OMITTED_FIELDS : List String := META_FIELDS ++ ["id"]

/-- Constant `CONTENT_TYPE` from `constants.js`. -/
def CONTENT_TYPE : String := "application/json"

/-- Constant `SERVER_URL` from `constants.js` (the default value; the
`process.env` override is deployment configuration, not modelled). -/
def SERVER_URL : String := "http://localhost:3001"

/-- Constant `MAX_RESULTS` from `constants.js`. -/
def MAX_RESULTS : Int := 50

/-- Constant `DEFAULT_LIMIT` from `constants.js`. -/
def DEFAULT_LIMIT : Int := 10

/-! ## utils/queries.js -/

/-- The body of the reduce inside `createBindings`, namely
`list.reduce((b, f, i) => template(b, f, i).trim(), "")` where the template
is `b SPACE f = $<f>` followed by the joiner when `i + 1 < l`.
The index test `i + 1 < l` holds exactly when the element is not the last
one, which is how this recursion renders it. -/
def bindingsCore (joiner : String) : String → List String → String
  | acc, [] => acc
  | acc, [f] => jsTrim (acc ++ " " ++ f ++ " = $<" ++ f ++ ">")
  | acc, f :: g :: rest =>
    bindingsCore joiner (jsTrim (acc ++ " " ++ f ++ " = $<" ++ f ++ ">" ++ joiner)) (g :: rest)

/-- Function `createBindings(fields, joinWith)` for an array argument: the default
joiner is the empty string. -/
def createBindingsList (fields : List String) (joinWith : Option String) : String :=
  bindingsCore (joinWith.getD "") "" fields

/-- Function `createBindings(fields, joinWith)` for an object argument: iterates
`Object.keys`, default joiner `" and"`. -/
def createBindingsMap (m : List (String × String)) (joinWith : Option String) : String :=
  bindingsCore (joinWith.getD " and") "" (m.map (fun p => p.1))

/-- Function `createWhereClause(bindings)`: empty string when the binding object is
empty (lodash `isEmpty`, also true for `undefined`, embedded as `[]`),
otherwise `" where " + createBindings(bindings)`. -/
def createWhereClause (m : List (String × String)) : String :=
  if m.isEmpty then "" else " where " ++ createBindingsMap m none

/-- Function `createInsertQuery(table, values)`. The `vals` reduce in the
source maps each key to its placeholder `$<name>` (with a trailing comma
separator when `i + 1 < l`) but its callback does not use the accumulator
`vs`, so each step replaces the string built so far. Stringifying the key
array joins with a bare comma. -/
def createInsertQuery (table : String) (values : List (String × String)) : String :=
  let names := values.map (fun p => p.1)
  let l := names.length
  let vals := (names.foldl
    (fun (acc : String × Nat) name =>
      ("$<" ++ name ++ ">" ++ (if acc.2 + 1 < l then ", " else ""), acc.2 + 1))
    ("", 0)).1
  "insert into " ++ table ++ "(" ++ String.intercalate "," names ++ ") values (" ++ vals
    ++ ") returning id"

/-- The insert query as documented in the source's own doc comment and in
the spec: one placeholder per key, comma separated, ending in
`returning id`. (Spec-side definition, to be compared with
`createInsertQuery`.) -/
def createInsertQuerySpec (table : String) (values : List (String × String)) : String :=
  let names := values.map (fun p => p.1)
  "insert into " ++ table ++ "(" ++ String.intercalate ", " names ++ ") values ("
    ++ String.intercalate ", " (names.map (fun n => "$<" ++ n ++ ">")) ++ ") returning id"

/-- The where clause as described by the spec: for a non-empty map,
`" where "` followed by the predicates `col = $<col>` joined with
`" and "`. (Spec-side definition, to be compared with
`createWhereClause`.) -/
def whereClauseSpec (m : List (String × String)) : String :=
  if m.isEmpty then ""
  else " where " ++ String.intercalate " and " (m.map (fun p => p.1 ++ " = $<" ++ p.1 ++ ">"))

/-! ## db.js -/

/-- Function `createSchema(schema)` from `db.js`: the object literal
`{ id: "SERIAL", ...schema, created_dt: ..., updated_dt: ... }`, evaluated
as successive property assignments in source order. -/
def createSchema (schema : List (String × String)) : List (String × String) :=
  setAssoc
    (setAssoc
      (schema.foldl (fun o p => setAssoc o p.1 p.2) [("id", "SERIAL")])
      "created_dt" "TIMESTAMP WITH TIME ZONE DEFAULT CURRENT_TIMESTAMP")
    "updated_dt" "TIMESTAMP"

/-! ## utils/generateETag.js -/

/-- lodash `omit(entity, fields)`. -/
def omitFields (e : Entity) (fs : List String) : Entity :=
  e.filter (fun p => !(fs.contains p.1))

/-- Function `generateETag(entity) = etag(JSON.stringify(omit(entity, META_FIELDS)))`.
The composite of the external `etag` library with `JSON.stringify` is the
parameter `fingerprintOf`; the source strips `META_FIELDS` before handing
the entity to it. -/
def generateETag {τ : Type} (fingerprintOf : Entity → τ) (e : Entity) : τ :=
  fingerprintOf (omitFields e META_FIELDS)

/-- Modelled from the spec: the external `etag` library applied to
`JSON.stringify` (both outside this repository) — "an opaque string
derived deterministically from an entity's non-audit fields". This
concrete stand-in is deterministic; where the spec idealizes the
fingerprint as collision-free, the theorems quantify over an injective
`fingerprintOf` instead of relying on this stand-in. -/
def jsonETag (e : Entity) : String :=
  String.intercalate "|" (e.map (fun p => p.1 ++ "=" ++ p.2))

/-- Bool test that two entities have the same columns in the same order
and agree on the value of every column outside `META_FIELDS` (they may
differ only in audit fields). -/
def agreeOffMeta : Entity → Entity → Bool
  | [], [] => true
  | (k₁, v₁) :: t₁, (k₂, v₂) :: t₂ =>
    k₁ == k₂ && (META_FIELDS.contains k₁ || v₁ == v₂) && agreeOffMeta t₁ t₂
  | _, _ => false

/-! ## utils/routes.js — first variant (lines 1–482): request model and
handlers `validateGET`/`retrieve`, `validatePUT`/`update`, `retrieveAll`. -/

/-- The parts of the express request object the handlers read. -/
structure Request where
  paramsId : Option String
  headers : List (String × String)
  originalUrl : String
  queryLimit : Option String
  queryOffset : Option String
  body : Entity
  deriving Repr, DecidableEq

/-- Header access `headers[name]` (express lower-cases header names). -/
def getHeader (headers : List (String × String)) (k : String) : Option String :=
  lookupAssoc headers k

/-- The redux store state consumed by the first-variant handlers:
`etags` keyed by the full route (`req.originalUrl`), `counts` keyed by
table name. -/
structure Store where
  etags : List (String × String)
  counts : List (String × Int)
  deriving Repr, DecidableEq

/-- Selector `getETag(route)` (`redux/selectors.js`). -/
def getETag (st : Store) (route : String) : Option String :=
  lookupAssoc st.etags route

/-- Selector `getCount(route)` (`redux/selectors.js`). -/
def getCount (st : Store) (name : String) : Option Int :=
  lookupAssoc st.counts name

/-- Effect of `store.dispatch(setCount(name, c))`. -/
def setCountStore (st : Store) (name : String) (c : Int) : Store :=
  { st with counts := setAssoc st.counts name c }

/-- Effect of `store.dispatch(createETag(route, entity))`: record the
generated tag for the route (the redux indirection is not modelled). -/
def createETagStore (st : Store) (route : String) (e : Entity) : Store :=
  { st with etags := setAssoc st.etags route (generateETag jsonETag e) }

/-- Effect of `store.dispatch(deleteETag(route))`. -/
def deleteETagStore (st : Store) (route : String) : Store :=
  { st with etags := removeAssoc st.etags route }

/-- Predicate `isValidContentType(headers)`: the `content-type` header is absent or
exactly the allowed content type. -/
def isValidContentType (headers : List (String × String)) : Bool :=
  match getHeader headers "content-type" with
  | none => true
  | some t => t == CONTENT_TYPE

/-- The conditional header consulted by `isValidETag`:
the template picking `if-none-match` when fetching, else `if-match`. -/
def headerFieldName (fetch : Bool) : String :=
  if fetch then "if-none-match" else "if-match"

/-- Predicate `isValidETag(headers, etag, fetch) = !!etag && !!headerETag && etag === headerETag`. -/
def isValidETag (headers : List (String × String)) (etag : Option String) (fetch : Bool) : Bool :=
  let headerETag := getHeader headers (headerFieldName fetch)
  truthy etag && truthy headerETag && (etag == headerETag)

/-- Predicate `isValidParams(req, "id")` for the single url parameter `id` that
every handler under scrutiny passes: `!!params[urlParams]`. -/
def isValidParams (req : Request) : Bool :=
  truthy req.paramsId

/-- Guard chain `validateGET(req, res, "id")`, rendered as the status it sends
(`some code`) or `none` when the request may proceed. -/
def validateGET (req : Request) (st : Store) : Option Nat :=
  if !(isValidParams req) || !(isValidContentType req.headers) then some 400
  else if isValidETag req.headers (getETag st req.originalUrl) true then some 304
  else none

/-- Outcome of the `retrieve` handler: response status, JSON body (if
any), `ETag` response header (if set), whether any database query was
issued, and the store afterwards. -/
structure GetResult where
  status : Nat
  body : Option Entity
  etagHeader : Option String
  dbQueried : Bool
  st : Store
  deriving Repr, DecidableEq

/-- The `retrieve(name)` handler body. `dbRow` is the reply of the one
possible database call `db.oneOrNone(findQuery, { id })`; the `dbQueried`
field of the result records whether that call was reached. -/
def retrieve (dbRow : Option Entity) (st : Store) (req : Request) : GetResult :=
  match validateGET req st with
  | some code => ⟨code, none, none, false, st⟩
  | none =>
    let route := req.originalUrl
    let etag := getETag st route
    match dbRow with
    | none => ⟨404, none, none, true, st⟩
    | some entity =>
      if truthy etag then ⟨200, some entity, etag, true, st⟩
      else
        let st1 := createETagStore st route entity
        ⟨200, some entity, getETag st1 route, true, st1⟩

/-- Condition `typeof validation === "function" && !validation(body)`. -/
def validationFails (validation : Option (Entity → Bool)) (body : Entity) : Bool :=
  match validation with
  | none => false
  | some f => !(f body)

/-- Guard chain `validatePUT(req, res, "id", validation)`, rendered as the status it
sends (`some code`) or `none` when the request may proceed. -/
def validatePUT (req : Request) (st : Store) (validation : Option (Entity → Bool)) : Option Nat :=
  if !(isValidParams req) || !(isValidContentType req.headers) || req.body.isEmpty
      || validationFails validation req.body then some 400
  else if !(isValidETag req.headers (getETag st req.originalUrl) false) then some 412
  else none

/-- Outcome of the `update` handler: status, whether the database was
called, the store and the database state afterwards. -/
structure UpdateResult (δ : Type) where
  status : Nat
  dbCalled : Bool
  st : Store
  db : δ
  deriving Repr, DecidableEq

/-- The `update(name, schema, schemaFields, validation)` handler body over
an abstract database state `δ`: `dbResult` is the effect and row count of
the one possible call `db.result(updateQuery, ...)`. -/
def update {δ : Type} (dbResult : δ → δ × Nat) (validation : Option (Entity → Bool))
    (db : δ) (st : Store) (req : Request) : UpdateResult δ :=
  match validatePUT req st validation with
  | some code => ⟨code, false, st, db⟩
  | none =>
    let id := req.paramsId.getD ""
    let route := req.originalUrl
    let bodyId := lookupAssoc req.body "id"
    if truthy bodyId && !(bodyId.getD "" == id) then ⟨400, false, st, db⟩
    else
      let res := dbResult db
      if res.2 == 1 then ⟨204, true, deleteETagStore st route, res.1⟩
      else ⟨500, true, st, res.1⟩

/-- Helper `makeLink(req, offset, limit)` from `retrieveAll`. -/
def makeLink (req : Request) (offset limit : Int) : String :=
  SERVER_URL ++ req.originalUrl ++ "?offset=" ++ toString offset ++ "&limit=" ++ toString limit

/-- The `meta` object of the list envelope. -/
structure ListMeta where
  total : Int
  offset : Int
  limit : Int
  next : Option String
  previous : Option String
  deriving Repr, DecidableEq

/-- Outcome of the `retrieveAll` handler: status, envelope (for the JSON
response), whether any database query was issued, and the store
afterwards. -/
structure ListResult where
  status : Nat
  body : Option (List Entity × ListMeta)
  dbQueried : Bool
  st : Store
  deriving Repr, DecidableEq

/-- The `retrieveAll(name, limiters, fields)` handler body. `dbRows` is
the reply of `db.many(...)` and `dbCount` the parsed reply of the count
query (issued only when the cached count is falsy). -/
def retrieveAll (name : String) (dbRows : List Entity) (dbCount : Int)
    (st : Store) (req : Request) : ListResult :=
  let limit0 := parseIntJS req.queryLimit
  let offset0 := parseIntJS req.queryOffset
  let offset : Int := match offset0 with
    | none => 0
    | some v => if v == 0 then 0 else v
  let limit : Int := match limit0 with
    | none => DEFAULT_LIMIT
    | some v => if v == 0 then DEFAULT_LIMIT else v
  if limit > MAX_RESULTS then ⟨400, none, false, st⟩
  else
    let cached := getCount st name
    let recompute := match cached with
      | none => true
      | some c => c == 0
    let total : Int := if recompute then dbCount else cached.getD 0
    let st1 := if recompute then setCountStore st name total else st
    ⟨200,
      some (dbRows,
        { total := total
          offset := offset
          limit := limit
          next := if offset + limit < total then some (makeLink req (offset + limit) limit) else none
          previous := if offset > 0 then some (makeLink req (max 0 (offset - limit)) limit) else none }),
      true, st1⟩

/-! ## utils/routes.js — second variant (lines 483–890): the `remove`
handler cited by the spec (tags keyed by id within a route/table name). -/

namespace Routes2

/-- Store state for the second variant: `etags` is a nested map
route name → id → tag (the shape built by `redux/etags.js`), `counts` as
before. -/
structure Store where
  etags : List (String × List (String × String))
  counts : List (String × Int)
  deriving Repr, DecidableEq

/-- Selector `getETag(id, name)`: `state.etags[name][id]`, `undefined` when either
level is missing (`id` itself may be `undefined`). -/
def getETag (st : Store) (id : Option String) (name : String) : Option String :=
  match lookupAssoc st.etags name, id with
  | some sub, some i => lookupAssoc sub i
  | _, _ => none

/-- Effect of `store.dispatch(deleteETag(id, name))`
(`redux/etags.js`: `{ ...state, [route]: omit(state[route], id) }`). -/
def deleteETagStore (st : Store) (id : Option String) (name : String) : Store :=
  { st with etags :=
      setAssoc st.etags name (removeAssoc ((lookupAssoc st.etags name).getD []) (id.getD "")) }

/-- Effect of `store.dispatch(setCount(name, c))`. -/
def setCountStore (st : Store) (name : String) (c : Int) : Store :=
  { st with counts := setAssoc st.counts name c }

/-- Outcome of the `remove` handler: status, whether any database call
was issued, store and database state afterwards. -/
structure RemoveResult (δ : Type) where
  status : Nat
  dbQueried : Bool
  st : Store
  db : δ
  deriving Repr, DecidableEq

/-- The `remove(name)` handler body (second variant, the one the spec
describes) over an abstract database state `δ`: `dbFind` is the reply of
`db.oneOrNone(findQuery, { id })`, `dbDelete` the effect and row count of
`db.result(deleteQuery, { id })`. -/
def remove {δ : Type} (dbFind : δ → Option Entity) (dbDelete : δ → δ × Nat)
    (db : δ) (st : Store) (name : String) (req : Request) : RemoveResult δ :=
  let id := req.paramsId
  let etag := getETag st id name
  if !(truthy id) then ⟨400, false, st, db⟩
  else if !(truthy etag) then ⟨404, false, st, db⟩
  else if !(isValidETag req.headers etag false) then ⟨412, false, st, db⟩
  else
    match dbFind db with
    | none => ⟨404, true, st, db⟩
    | some _ =>
      let res := dbDelete db
      if res.2 == 1 then ⟨200, true, setCountStore (deleteETagStore st id name) name 0, res.1⟩
      else ⟨500, true, st, res.1⟩

end Routes2

/-! ## Theorems -/

/-- Claim C4: the source's own doc comment promises
`createInsertQuery("User", { username, password })` =
`insert into User(username, password) values($<username>, $<password>) returning id`,
but the `vals` reduce discards its accumulator, so only the placeholder of
the LAST key survives (and `${names}` joins column names without a
space). Evaluating the code at the documented input shows the divergence
from the documented/spec form. -/
theorem createInsertQuery_drops_placeholders :
    createInsertQuery "User" [("username", "wowza"), ("password", "really?plaintext?")]
      = "insert into User(username,password) values ($<password>) returning id"
    ∧ createInsertQuerySpec "User" [("username", "wowza"), ("password", "really?plaintext?")]
      = "insert into User(username, password) values ($<username>, $<password>) returning id"
    ∧ createInsertQuery "User" [("username", "wowza"), ("password", "really?plaintext?")]
      ≠ createInsertQuerySpec "User" [("username", "wowza"), ("password", "really?plaintext?")] := by
  refine ⟨rfl, rfl, ?_⟩
  decide

/-- Overwriting the value of a key leaves the key list unchanged. -/
theorem map_fst_overwrite {α : Type} (o : List (String × α)) (k : String) (v : α) :
    (o.map (fun p => if p.1 == k then (k, v) else p)).map (fun p => p.1)
      = o.map (fun p => p.1) := by
  induction o with
  | nil => rfl
  | cons q t ih =>
    by_cases hq : q.1 == k
    · have hq' : q.1 = k := by simpa using hq
      simp only [List.map_cons, hq, if_true, ih]
      simp [hq']
    · simp only [List.map_cons, hq, Bool.false_eq_true, if_false, ih]

/-- Keys of `setAssoc o k v` are the keys of `o` together with `k`. -/
theorem mem_keys_setAssoc {α : Type} (o : List (String × α)) (k : String) (v : α) (x : String) :
    x ∈ (setAssoc o k v).map (fun p => p.1) ↔ x ∈ o.map (fun p => p.1) ∨ x = k := by
  unfold setAssoc
  by_cases h : (o.map (fun p => p.1)).contains k
  · have hk : k ∈ o.map (fun p => p.1) := by
      simpa using h
    simp only [h, if_true, map_fst_overwrite]
    constructor
    · exact fun hx => Or.inl hx
    · rintro (hx | rfl)
      · exact hx
      · exact hk
  · simp only [h, if_false]
    simp [List.map_append]

/-- Keys accumulated by the spread `...schema` over a start object. -/
theorem mem_keys_foldl_setAssoc (s : List (String × String)) (x : String) :
    ∀ (o : List (String × String)),
      (x ∈ (s.foldl (fun o p => setAssoc o p.1 p.2) o).map (fun p => p.1)
        ↔ x ∈ o.map (fun p => p.1) ∨ x ∈ s.map (fun p => p.1)) := by
  induction s with
  | nil => intro o; simp
  | cons p t ih =>
    intro o
    simp only [List.foldl_cons, ih, mem_keys_setAssoc, List.map_cons, List.mem_cons]
    tauto

/-- Claim C9: for every column map `s`, the schema returned by
`createSchema s` has exactly the keys of `s` plus `id`, `created_dt` and
`updated_dt`, and no other keys. -/
theorem createSchema_keys (s : List (String × String)) (k : String) :
    k ∈ (createSchema s).map (fun p => p.1)
      ↔ (k ∈ s.map (fun p => p.1) ∨ k = "id" ∨ k = "created_dt" ∨ k = "updated_dt") := by
  unfold createSchema
  simp only [mem_keys_setAssoc, mem_keys_foldl_setAssoc, List.map_cons, List.map_nil,
    List.mem_cons, List.not_mem_nil, or_false]
  tauto

/-- Entities that agree outside the audit fields have the same stripped
form. -/
theorem omit_eq_of_agreeOffMeta :
    ∀ (e₁ e₂ : Entity), agreeOffMeta e₁ e₂ = true →
      omitFields e₁ META_FIELDS = omitFields e₂ META_FIELDS := by
  intro e₁
  induction e₁ with
  | nil =>
    intro e₂ h
    cases e₂ with
    | nil => rfl
    | cons q u => simp [agreeOffMeta] at h
  | cons p t ih =>
    intro e₂ h
    cases e₂ with
    | nil => obtain ⟨k₁, v₁⟩ := p; simp [agreeOffMeta] at h
    | cons q u =>
      obtain ⟨k₁, v₁⟩ := p
      obtain ⟨k₂, v₂⟩ := q
      simp only [agreeOffMeta, Bool.and_eq_true, Bool.or_eq_true, beq_iff_eq] at h
      obtain ⟨⟨hk, hv⟩, ht⟩ := h
      subst hk
      unfold omitFields
      simp only [List.filter_cons]
      by_cases hmem : META_FIELDS.contains k₁
      · simp only [hmem, Bool.not_true, Bool.false_eq_true, if_false]
        exact ih u ht
      · have hv' : v₁ = v₂ := by
          rcases hv with h | h
          · exact absurd h hmem
          · exact h
        subst hv'
        simp only [Bool.not_eq_true'] at hmem
        simp only [hmem, Bool.not_false, if_true]
        have := ih u ht
        unfold omitFields at this
        rw [this]

/-- Stripping the audit fields distributes over a context around a
non-audit column. -/
theorem omit_append_cons (pre post : Entity) (k v : String)
    (h : META_FIELDS.contains k = false) :
    omitFields (pre ++ (k, v) :: post) META_FIELDS
      = omitFields pre META_FIELDS ++ (k, v) :: omitFields post META_FIELDS := by
  unfold omitFields
  have h' : k ∉ META_FIELDS := by simpa using h
  simp [List.filter_append, List.filter_cons, h']

/-- Claim C5: `generateETag` is deterministic; entities that agree on
every non-audit field (same columns in the same order, differing only in
`created_dt`/`updated_dt` values) get the same tag; and changing the
value of any non-audit column changes the tag, for any injective
fingerprint function (the spec's idealization of the hash). -/
theorem generateETag_properties {τ : Type} (fingerprintOf : Entity → τ)
    (hinj : Function.Injective fingerprintOf) :
    (∀ e₁ e₂ : Entity, e₁ = e₂ →
      generateETag fingerprintOf e₁ = generateETag fingerprintOf e₂)
    ∧ (∀ e₁ e₂ : Entity, agreeOffMeta e₁ e₂ = true →
      generateETag fingerprintOf e₁ = generateETag fingerprintOf e₂)
    ∧ (∀ (pre post : Entity) (k v v' : String),
      META_FIELDS.contains k = false → v ≠ v' →
      generateETag fingerprintOf (pre ++ (k, v) :: post)
        ≠ generateETag fingerprintOf (pre ++ (k, v') :: post)) := by
  refine ⟨fun e₁ e₂ h => by rw [h], fun e₁ e₂ h => ?_, ?_⟩
  · unfold generateETag
    rw [omit_eq_of_agreeOffMeta e₁ e₂ h]
  · intro pre post k v v' hk hne heq
    have hstrip := hinj heq
    rw [omit_append_cons pre post k v hk, omit_append_cons pre post k v' hk] at hstrip
    have hcons := List.append_cancel_left hstrip
    simp only [List.cons.injEq, Prod.mk.injEq] at hcons
    exact hne hcons.1.2

/-- Witness for C5 at concrete entities (fingerprint instantiated with the
identity, which is injective): audit-only difference keeps the tag, a
`name` change flips it. -/
theorem generateETag_properties_witness :
    agreeOffMeta [("id", "1"), ("name", "x"), ("created_dt", "a")]
        [("id", "1"), ("name", "x"), ("created_dt", "b")] = true
    ∧ generateETag (fun e => e) [("id", "1"), ("name", "x"), ("created_dt", "a")]
        = generateETag (fun e => e) [("id", "1"), ("name", "x"), ("created_dt", "b")]
    ∧ generateETag (fun e => e) [("id", "1"), ("name", "x")]
        ≠ generateETag (fun e => e) [("id", "1"), ("name", "y")] :=
  ⟨by decide,
    (generateETag_properties (fun e => e) (fun _ _ h => h)).2.1 _ _ (by decide),
    (generateETag_properties (fun e => e) (fun _ _ h => h)).2.2 [("id", "1")] [] "name" "x" "y"
      (by decide) (by decide)⟩

/-- A nonempty tag and an equal header make `isValidETag` succeed. -/
theorem isValidETag_of_match (headers : List (String × String)) (t : String) (fetch : Bool)
    (hh : getHeader headers (headerFieldName fetch) = some t) (ht : t ≠ "") :
    isValidETag headers (some t) fetch = true := by
  unfold isValidETag
  rw [hh]
  simp [truthy, ht]

/-- When `validateGET` lets a request through, the conditional-tag check
has failed. -/
theorem validateGET_none_etag (req : Request) (st : Store)
    (h : validateGET req st = none) :
    isValidETag req.headers (getETag st req.originalUrl) true = false := by
  unfold validateGET at h
  by_cases h1 : !(isValidParams req) || !(isValidContentType req.headers)
  · simp [h1] at h
  · simp only [h1, Bool.false_eq_true, if_false] at h
    by_cases h2 : isValidETag req.headers (getETag st req.originalUrl) true
    · simp [h2] at h
    · simpa using h2

/-- Claim C1: a GET-by-id request (id present, acceptable content type)
whose `if-none-match` header equals the tag cached for that exact route is
answered 304 with no body, no `ETag` header, no database query and an
unchanged store; and the database-fetch branch of `retrieve` is reached
only when the conditional check fails. -/
theorem retrieve_conditional_304 :
    (∀ (dbRow : Option Entity) (st : Store) (req : Request) (t : String),
      isValidParams req = true → isValidContentType req.headers = true →
      getETag st req.originalUrl = some t →
      getHeader req.headers "if-none-match" = some t → t ≠ "" →
      retrieve dbRow st req = ⟨304, none, none, false, st⟩)
    ∧ (∀ (dbRow : Option Entity) (st : Store) (req : Request),
      (retrieve dbRow st req).dbQueried = true →
      isValidETag req.headers (getETag st req.originalUrl) true = false) := by
  constructor
  · intro dbRow st req t hp hct hget hh ht
    have hv : isValidETag req.headers (getETag st req.originalUrl) true = true := by
      rw [hget]
      exact isValidETag_of_match req.headers t true (by simpa [headerFieldName] using hh) ht
    have hval : validateGET req st = some 304 := by
      unfold validateGET
      simp [hp, hct, hv]
    unfold retrieve
    rw [hval]
  · intro dbRow st req h
    cases hval : validateGET req st with
    | some code =>
      unfold retrieve at h
      rw [hval] at h
      simp at h
    | none => exact validateGET_none_etag req st hval

/-- Witness for C1: a concrete conditional GET against a cached tag is
answered 304 without touching the database. -/
theorem retrieve_conditional_304_witness :
    retrieve (some [("id", "1"), ("name", "x")])
        ⟨[("/items/1", "W-abc")], []⟩
        ⟨some "1", [("if-none-match", "W-abc")], "/items/1", none, none, []⟩
      = ⟨304, none, none, false, ⟨[("/items/1", "W-abc")], []⟩⟩ :=
  retrieve_conditional_304.1 (some [("id", "1"), ("name", "x")])
    ⟨[("/items/1", "W-abc")], []⟩
    ⟨some "1", [("if-none-match", "W-abc")], "/items/1", none, none, []⟩
    "W-abc" (by decide) (by decide) (by decide) (by decide) (by decide)

/-- Claim C2: a PUT request that passes shape validation (id present,
acceptable content type, nonempty body, custom validation passing) but
whose `if-match` header does not match the cached tag for the route is
answered 412; the database is never called and both the database state
and the tag cache are returned unchanged. -/
theorem update_stale_tag_412 {δ : Type} (dbResult : δ → δ × Nat)
    (validation : Option (Entity → Bool)) (db : δ) (st : Store) (req : Request)
    (hp : isValidParams req = true) (hct : isValidContentType req.headers = true)
    (hb : req.body.isEmpty = false) (hval : validationFails validation req.body = false)
    (htag : isValidETag req.headers (getETag st req.originalUrl) false = false) :
    update dbResult validation db st req = ⟨412, false, st, db⟩ := by
  have hvp : validatePUT req st validation = some 412 := by
    unfold validatePUT
    simp [hp, hct, hb, hval, htag]
  unfold update
  rw [hvp]

/-- Witness for C2: a concrete PUT carrying a stale `if-match` tag is
answered 412 and leaves the database state (here a counter) and the store
unchanged. -/
theorem update_stale_tag_412_witness :
    update (fun (n : Nat) => (n + 1, 1)) none 7
        ⟨[("/items/1", "W-current")], []⟩
        ⟨some "1", [("if-match", "W-stale")], "/items/1", none, none, [("name", "x")]⟩
      = ⟨412, false, ⟨[("/items/1", "W-current")], []⟩, 7⟩ :=
  update_stale_tag_412 (fun (n : Nat) => (n + 1, 1)) none 7
    ⟨[("/items/1", "W-current")], []⟩
    ⟨some "1", [("if-match", "W-stale")], "/items/1", none, none, [("name", "x")]⟩
    (by decide) (by decide) (by decide) (by decide) (by decide)

/-- Claim C10: a PUT request on a route with no cached tag is answered 412
and never reaches the database, even when it carries an `if-match` header
(and whatever the addressed row holds), because `isValidETag` demands a
truthy cached tag AND a truthy header tag that are equal. -/
theorem update_untagged_route_412 {δ : Type} (dbResult : δ → δ × Nat)
    (validation : Option (Entity → Bool)) (db : δ) (st : Store) (req : Request) (h : String)
    (hp : isValidParams req = true) (hct : isValidContentType req.headers = true)
    (hb : req.body.isEmpty = false) (hval : validationFails validation req.body = false)
    (hnone : getETag st req.originalUrl = none)
    (_hhdr : getHeader req.headers "if-match" = some h) :
    update dbResult validation db st req = ⟨412, false, st, db⟩
    ∧ (∀ (hs : List (String × String)) (e : Option String) (f : Bool),
        isValidETag hs e f = true →
        ∃ t, e = some t ∧ t ≠ "" ∧ getHeader hs (headerFieldName f) = some t) := by
  constructor
  · have htag : isValidETag req.headers (getETag st req.originalUrl) false = false := by
      unfold isValidETag
      rw [hnone]
      simp [truthy]
    exact update_stale_tag_412 dbResult validation db st req hp hct hb hval htag
  · intro hs e f hv
    unfold isValidETag at hv
    simp only [Bool.and_eq_true] at hv
    obtain ⟨⟨he, hh⟩, heq⟩ := hv
    cases e with
    | none => simp [truthy] at he
    | some t =>
      refine ⟨t, rfl, ?_, ?_⟩
      · simpa [truthy] using he
      · exact (eq_of_beq heq).symm ▸ rfl

/-- Witness for C10: a concrete PUT on a never-read route (empty tag
cache) with an `if-match` header present is answered 412 without any
database call. -/
theorem update_untagged_route_412_witness :
    update (fun (n : Nat) => (n + 1, 1)) none 7 ⟨[], []⟩
        ⟨some "1", [("if-match", "W-abc")], "/items/1", none, none, [("name", "x")]⟩
      = ⟨412, false, ⟨[], []⟩, 7⟩ :=
  (update_untagged_route_412 (fun (n : Nat) => (n + 1, 1)) none 7 ⟨[], []⟩
    ⟨some "1", [("if-match", "W-abc")], "/items/1", none, none, [("name", "x")]⟩
    "W-abc" (by decide) (by decide) (by decide) (by decide) (by decide) (by decide)).1

/-- Claim C3: a DELETE request (id present) addressing a route with no
cached tag is answered 404 by the `remove` handler without any database
query or mutation and with the store unchanged; and a 412 from `remove`
happens only when a (nonempty) tag IS cached for the route but the
`if-match` header does not carry it. -/
theorem remove_untagged_404 {δ : Type} (dbFind : δ → Option Entity)
    (dbDelete : δ → δ × Nat) (db : δ) (st : Routes2.Store) (name : String)
    (req : Request) (i : String)
    (hid : req.paramsId = some i) (hine : i ≠ "")
    (hnone : Routes2.getETag st req.paramsId name = none) :
    Routes2.remove dbFind dbDelete db st name req = ⟨404, false, st, db⟩
    ∧ (∀ (δ' : Type) (dbFind' : δ' → Option Entity) (dbDelete' : δ' → δ' × Nat)
        (db' : δ') (st' : Routes2.Store) (name' : String) (req' : Request),
        (Routes2.remove dbFind' dbDelete' db' st' name' req').status = 412 →
        ∃ t, Routes2.getETag st' req'.paramsId name' = some t ∧ t ≠ ""
          ∧ getHeader req'.headers "if-match" ≠ some t) := by
  constructor
  · have hnone' : Routes2.getETag st (some i) name = none := by rw [← hid]; exact hnone
    have hbeq : (i == "") = false := beq_eq_false_iff_ne.mpr hine
    unfold Routes2.remove
    simp only [hid, hnone']
    simp [truthy, hbeq]
  · intro δ' dbFind' dbDelete' db' st' name' req' hst
    unfold Routes2.remove at hst
    by_cases h1 : truthy req'.paramsId
    · by_cases h2 : truthy (Routes2.getETag st' req'.paramsId name')
      · by_cases h3 : isValidETag req'.headers (Routes2.getETag st' req'.paramsId name') false
        · exfalso
          simp only [h1, h2, h3, Bool.not_true, Bool.false_eq_true, if_false] at hst
          cases hfind : dbFind' db' with
          | none => simp only [hfind] at hst; simp at hst
          | some e =>
            simp only [hfind] at hst
            cases h4 : ((dbDelete' db').2 == 1) with
            | true => simp only [h4, if_true] at hst; simp at hst
            | false => simp only [h4, Bool.false_eq_true, if_false] at hst; simp at hst
        · cases hget : Routes2.getETag st' req'.paramsId name' with
          | none =>
            exfalso
            rw [hget] at h2
            simp [truthy] at h2
          | some t =>
            have ht : t ≠ "" := by
              rw [hget] at h2
              simpa [truthy] using h2
            refine ⟨t, rfl, ht, fun hh => ?_⟩
            apply h3
            rw [hget]
            exact isValidETag_of_match req'.headers t false
              (by simpa [headerFieldName] using hh) ht
      · exfalso
        rw [Bool.not_eq_true] at h2
        simp only [h1, h2, Bool.not_true, Bool.not_false, Bool.false_eq_true, if_false,
          if_true] at hst
        simp at hst
    · exfalso
      rw [Bool.not_eq_true] at h1
      simp only [h1, Bool.not_false, if_true] at hst
      simp at hst

/-- Witness for C3: a concrete DELETE on a route whose tag was never
cached is answered 404 with no database interaction. -/
theorem remove_untagged_404_witness :
    Routes2.remove (fun (_ : Nat) => some [("id", "1")]) (fun n => (n + 1, 1)) 7
        ⟨[], []⟩ "items" ⟨some "1", [("if-match", "W-abc")], "/items/1", none, none, []⟩
      = ⟨404, false, ⟨[], []⟩, 7⟩ :=
  (remove_untagged_404 (fun (_ : Nat) => some [("id", "1")]) (fun n => (n + 1, 1)) 7
    ⟨[], []⟩ "items" ⟨some "1", [("if-match", "W-abc")], "/items/1", none, none, []⟩
    "1" (by decide) (by decide) (by decide)).1

/-- The concrete list request of the spec's example: `limit=5&offset=5`. -/
def pageReq : Request :=
  { paramsId := none
    headers := []
    originalUrl := "/items"
    queryLimit := some "5"
    queryOffset := some "5"
    body := [] }

/-- The envelope meta produced for `pageReq` over 12 cached total rows. -/
def pageMeta : ListMeta :=
  { total := 12
    offset := 5
    limit := 5
    next := some "http://localhost:3001/items?offset=10&limit=5"
    previous := some "http://localhost:3001/items?offset=0&limit=5" }

/-- Claim C6: in every list envelope produced by `retrieveAll`, `meta.next`
is a link exactly when `offset + limit < total` (else `null`) and
`meta.previous` is a link exactly when `offset > 0` (else `null`); in
particular, `limit=5&offset=5` over 12 total rows yields both links. -/
theorem retrieveAll_pagination :
    (∀ (name : String) (dbRows : List Entity) (dbCount : Int) (st : Store)
      (req : Request) (d : List Entity) (m : ListMeta),
      (retrieveAll name dbRows dbCount st req).body = some (d, m) →
      ((m.next.isSome = true) ↔ m.offset + m.limit < m.total)
      ∧ ((m.previous.isSome = true) ↔ m.offset > 0))
    ∧ (retrieveAll "items" [] 0 ⟨[], [("items", 12)]⟩ pageReq).body = some ([], pageMeta)
    ∧ pageMeta.next.isSome = true ∧ pageMeta.previous.isSome = true := by
  refine ⟨?_, ?_, rfl, rfl⟩
  · intro name dbRows dbCount st req d m hb
    unfold retrieveAll at hb
    by_cases hcap :
        (match parseIntJS req.queryLimit with
          | none => DEFAULT_LIMIT
          | some v => if v == 0 then DEFAULT_LIMIT else v) > MAX_RESULTS
    · simp only [hcap, if_true] at hb
      simp at hb
    · simp only [hcap, if_false] at hb
      simp only [Option.some.injEq, Prod.mk.injEq] at hb
      obtain ⟨-, hm⟩ := hb
      subst hm
      constructor
      · by_cases hlt :
            (match parseIntJS req.queryOffset with
              | none => 0
              | some v => if v == 0 then 0 else v)
            + (match parseIntJS req.queryLimit with
              | none => DEFAULT_LIMIT
              | some v => if v == 0 then DEFAULT_LIMIT else v)
            < (if (match getCount st name with | none => true | some c => c == 0)
                then dbCount else (getCount st name).getD 0) <;>
          simp [hlt]
      · by_cases hpos :
            (match parseIntJS req.queryOffset with
              | none => 0
              | some v => if v == 0 then 0 else v) > 0 <;>
          simp [hpos]
  · rfl

/-- Witness for C6: the pagination biconditionals instantiated at the
spec's `limit=5&offset=5`, 12-rows example. -/
theorem retrieveAll_pagination_witness :
    ((pageMeta.next.isSome = true) ↔ pageMeta.offset + pageMeta.limit < pageMeta.total)
    ∧ ((pageMeta.previous.isSome = true) ↔ pageMeta.offset > 0) :=
  retrieveAll_pagination.1 "items" [] 0 ⟨[], [("items", 12)]⟩ pageReq [] pageMeta
    retrieveAll_pagination.2.1

/-- A list request with no `limit`/`offset` query parameters. -/
def plainListReq : Request :=
  { paramsId := none
    headers := []
    originalUrl := "/items"
    queryLimit := none
    queryOffset := none
    body := [] }

/-- A list request with `limit=100`. -/
def cappedListReq : Request :=
  { plainListReq with queryLimit := some "100" }

/-- Claim C7: `retrieveAll` defaults the limit to 10 and the offset to 0
when the query parameters are absent or unparsable (`parseInt` yields
`NaN`), and answers 400 without any database query whenever the parsed
limit exceeds 50. -/
theorem retrieveAll_defaults_and_cap :
    (∀ (name : String) (dbRows : List Entity) (dbCount : Int) (st : Store) (req : Request),
      parseIntJS req.queryLimit = none → parseIntJS req.queryOffset = none →
      (retrieveAll name dbRows dbCount st req).status = 200
      ∧ ∃ m : ListMeta,
          (retrieveAll name dbRows dbCount st req).body = some (dbRows, m)
          ∧ m.limit = 10 ∧ m.offset = 0)
    ∧ (∀ (name : String) (dbRows : List Entity) (dbCount : Int) (st : Store)
        (req : Request) (v : Int),
      parseIntJS req.queryLimit = some v → v > 50 →
      retrieveAll name dbRows dbCount st req = ⟨400, none, false, st⟩) := by
  constructor
  · intro name dbRows dbCount st req h1 h2
    unfold retrieveAll
    simp only [h1, h2]
    rw [if_neg (by norm_num [DEFAULT_LIMIT, MAX_RESULTS])]
    exact ⟨rfl, _, rfl, rfl, rfl⟩
  · intro name dbRows dbCount st req v h1 hv
    have hvne : (v == 0) = false := beq_eq_false_iff_ne.mpr (by omega)
    unfold retrieveAll
    simp only [h1, hvne, Bool.false_eq_true, if_false]
    rw [if_pos (by simpa [MAX_RESULTS] using hv)]

/-- Witness for C7: no query parameters gives a 200 envelope with
`limit = 10`, `offset = 0`; `limit=100` gives 400 with no database
query and an unchanged store. -/
theorem retrieveAll_defaults_and_cap_witness :
    ((retrieveAll "items" [] 3 ⟨[], []⟩ plainListReq).status = 200
      ∧ ∃ m : ListMeta,
          (retrieveAll "items" [] 3 ⟨[], []⟩ plainListReq).body = some ([], m)
          ∧ m.limit = 10 ∧ m.offset = 0)
    ∧ retrieveAll "items" [] 3 ⟨[], []⟩ cappedListReq = ⟨400, none, false, ⟨[], []⟩⟩ :=
  ⟨retrieveAll_defaults_and_cap.1 "items" [] 3 ⟨[], []⟩ plainListReq rfl rfl,
    retrieveAll_defaults_and_cap.2 "items" [] 3 ⟨[], []⟩ cappedListReq 100
      (by decide) (by decide)⟩

/-! ### Where-clause characterization (C8) -/

/-- A usable SQL column key: nonempty and free of whitespace (the `.trim`
in the source only ever removes the separator space for such keys). -/
def goodKey (s : String) : Bool :=
  !(s == "") && s.data.all (fun c => !(isWs c))

/-- Trimming a list whose ends are not whitespace is the identity. -/
theorem trimList_eq_self (l : List Char)
    (h1 : ∀ c, l.head? = some c → isWs c = false)
    (h2 : ∀ c, l.reverse.head? = some c → isWs c = false) :
    trimList l = l := by
  unfold trimList
  cases l with
  | nil => rfl
  | cons c t =>
    rw [List.dropWhile_cons, h1 c rfl]
    simp only [Bool.false_eq_true, if_false]
    cases hrev : (c :: t).reverse with
    | nil => exact absurd hrev (by simp)
    | cons d r =>
      rw [List.dropWhile_cons, h2 d (by rw [hrev]; rfl)]
      simp only [Bool.false_eq_true, if_false]
      rw [← hrev, List.reverse_reverse]

/-- A leading space disappears under trim. -/
theorem trimList_space (l : List Char) : trimList (' ' :: l) = trimList l := by
  unfold trimList
  rw [List.dropWhile_cons]
  norm_num [isWs]

/-- Trimming via `jsTrim` is the identity on strings whose ends are not whitespace. -/
theorem jsTrim_eq_self (s : String)
    (h1 : ∀ c, s.data.head? = some c → isWs c = false)
    (h2 : ∀ c, s.data.reverse.head? = some c → isWs c = false) :
    jsTrim s = s := by
  unfold jsTrim
  rw [trimList_eq_self s.data h1 h2]

/-- Trimming a string that is a space followed by a well-ended string
is that string. -/
theorem jsTrim_eq_of_space_data (s t : String) (hdata : s.data = ' ' :: t.data)
    (h1 : ∀ c, t.data.head? = some c → isWs c = false)
    (h2 : ∀ c, t.data.reverse.head? = some c → isWs c = false) :
    jsTrim s = t := by
  unfold jsTrim
  rw [hdata, trimList_space, trimList_eq_self t.data h1 h2]

/-- The head of an append with a nonempty left part is the head of the
left part. -/
theorem head?_append_left {α : Type} (x y : List α) (c : α) (h : x.head? = some c) :
    (x ++ y).head? = some c := by
  cases x with
  | nil => simp at h
  | cons a t => simpa using h

/-- Nonemptiness and a whitespace-free head survive appending on the
right. -/
theorem goodHead_append (a b : String) (hne : a.data ≠ [])
    (h : ∀ c, a.data.head? = some c → isWs c = false) :
    (a ++ b).data ≠ [] ∧ ∀ c, (a ++ b).data.head? = some c → isWs c = false := by
  constructor
  · rw [String.data_append]
    intro hcon
    exact hne (List.append_eq_nil.mp hcon).1
  · intro c hc
    rw [String.data_append] at hc
    cases hd : a.data with
    | nil => exact absurd hd hne
    | cons x t =>
      rw [hd] at hc
      simp only [List.cons_append, List.head?_cons, Option.some.injEq] at hc
      subst hc
      exact h x (by rw [hd]; rfl)

/-- A string ending in a literal whose last character is not whitespace
has a whitespace-free last character. -/
theorem goodTail_append (a suf : String) (c0 : Char)
    (hsuf : suf.data.reverse.head? = some c0) (hc : isWs c0 = false) :
    ∀ c, (a ++ suf).data.reverse.head? = some c → isWs c = false := by
  intro c h
  rw [String.data_append, List.reverse_append] at h
  rw [head?_append_left suf.data.reverse a.data.reverse c0 hsuf] at h
  cases h
  exact hc

/-- Unpacking `goodKey`. -/
theorem goodKey_elim (f : String) (h : goodKey f = true) :
    f.data ≠ [] ∧ ∀ c ∈ f.data, isWs c = false := by
  simp only [goodKey, Bool.and_eq_true, Bool.not_eq_true', List.all_eq_true] at h
  obtain ⟨hne, hall⟩ := h
  constructor
  · intro hd
    obtain ⟨d⟩ := f
    simp at hd
    subst hd
    simp at hne
  · intro c hc
    simpa using hall c hc

/-- The head of a good key is not whitespace, through any right append. -/
theorem goodKey_head_append (f b : String) (h : goodKey f = true) :
    (f ++ b).data ≠ [] ∧ ∀ c, (f ++ b).data.head? = some c → isWs c = false := by
  obtain ⟨hne, hall⟩ := goodKey_elim f h
  refine goodHead_append f b hne ?_
  intro c hc
  cases hd : f.data with
  | nil => exact absurd hd hne
  | cons x t =>
    rw [hd] at hc
    simp only [List.head?_cons, Option.some.injEq] at hc
    subst hc
    exact hall x (by rw [hd]; exact List.mem_cons_self x t)

/-- Step equation of the accumulator of `String.intercalate`. -/
theorem intercalate_go_eq (sep : String) :
    ∀ (l : List String) (a b : String),
      String.intercalate.go a sep (b :: l) = a ++ sep ++ String.intercalate.go b sep l := by
  intro l
  induction l with
  | nil => intro a b; simp [String.intercalate.go]
  | cons c t ih =>
    intro a b
    rw [String.intercalate.go, ih (a ++ sep ++ b) c, ih b c]
    simp [String.append_assoc]

/-- Joining a singleton list is its element. -/
theorem intercalate_singleton (sep a : String) : String.intercalate sep [a] = a := by
  simp [String.intercalate, String.intercalate.go]

/-- Joining peels its first element. -/
theorem intercalate_cons₂ (sep a b : String) (l : List String) :
    String.intercalate sep (a :: b :: l) = a ++ sep ++ String.intercalate sep (b :: l) := by
  simp only [String.intercalate]
  exact intercalate_go_eq sep l a b

/-- The joiner-then-space sequence written by consecutive reduce steps is
the separator `" and "` of the spec. -/
theorem and_space_data :
    (" and " : String).data = (" and" : String).data ++ (" " : String).data := rfl

/-- Running `bindingsCore` from a nonempty accumulator with whitespace-free
ends appends the `" and "`-joined predicates after a separating space. -/
theorem bindingsCore_acc (ks : List String) :
    ∀ (acc : String), acc.data ≠ [] →
      (∀ c, acc.data.head? = some c → isWs c = false) →
      (∀ c, acc.data.reverse.head? = some c → isWs c = false) →
      (∀ f ∈ ks, goodKey f = true) → ks ≠ [] →
      bindingsCore " and" acc ks
        = acc ++ " " ++ String.intercalate " and " (ks.map (fun f => f ++ " = $<" ++ f ++ ">")) := by
  induction ks with
  | nil =>
    intro acc _ _ _ _ hne
    exact absurd rfl hne
  | cons f rest ih =>
    intro acc hne h1 h2 hkeys _
    have hf : goodKey f = true := hkeys f (List.mem_cons_self f rest)
    cases rest with
    | nil =>
      show jsTrim (acc ++ " " ++ f ++ " = $<" ++ f ++ ">") = _
      have g1 := goodHead_append acc " " hne h1
      have g2 := goodHead_append _ f g1.1 g1.2
      have g3 := goodHead_append _ " = $<" g2.1 g2.2
      have g4 := goodHead_append _ f g3.1 g3.2
      have g5 := goodHead_append _ ">" g4.1 g4.2
      rw [jsTrim_eq_self _ g5.2 (goodTail_append _ ">" '>' rfl (by decide))]
      rw [List.map_cons, List.map_nil, intercalate_singleton]
      apply String.ext
      simp [String.data_append, List.append_assoc]
    | cons g t =>
      show bindingsCore " and"
          (jsTrim (acc ++ " " ++ f ++ " = $<" ++ f ++ ">" ++ " and")) (g :: t) = _
      have g1 := goodHead_append acc " " hne h1
      have g2 := goodHead_append _ f g1.1 g1.2
      have g3 := goodHead_append _ " = $<" g2.1 g2.2
      have g4 := goodHead_append _ f g3.1 g3.2
      have g5 := goodHead_append _ ">" g4.1 g4.2
      have g6 := goodHead_append _ " and" g5.1 g5.2
      rw [jsTrim_eq_self _ g6.2 (goodTail_append _ " and" 'd' rfl (by decide))]
      rw [ih (acc ++ " " ++ f ++ " = $<" ++ f ++ ">" ++ " and") g6.1 g6.2
        (goodTail_append _ " and" 'd' rfl (by decide))
        (fun k hk => hkeys k (List.mem_cons_of_mem f hk)) (by simp)]
      simp only [List.map_cons]
      rw [intercalate_cons₂]
      apply String.ext
      simp [String.data_append, List.append_assoc, and_space_data]

/-- Function `createBindings` over the keys of a map with the default object joiner
`" and"` produces exactly the `" and "`-joined predicates. -/
theorem bindingsCore_start (ks : List String) (hne : ks ≠ [])
    (hkeys : ∀ f ∈ ks, goodKey f = true) :
    bindingsCore " and" "" ks
      = String.intercalate " and " (ks.map (fun f => f ++ " = $<" ++ f ++ ">")) := by
  cases ks with
  | nil => exact absurd rfl hne
  | cons f rest =>
    have hf : goodKey f = true := hkeys f (List.mem_cons_self f rest)
    have p1 := goodKey_head_append f " = $<" hf
    have p2 := goodHead_append _ f p1.1 p1.2
    have p3 := goodHead_append _ ">" p2.1 p2.2
    cases rest with
    | nil =>
      show jsTrim ("" ++ " " ++ f ++ " = $<" ++ f ++ ">") = _
      rw [jsTrim_eq_of_space_data _ (f ++ " = $<" ++ f ++ ">")
        (by simp [String.data_append, List.append_assoc]) p3.2
        (goodTail_append _ ">" '>' rfl (by decide))]
      rw [List.map_cons, List.map_nil, intercalate_singleton]
    | cons g t =>
      show bindingsCore " and"
          (jsTrim ("" ++ " " ++ f ++ " = $<" ++ f ++ ">" ++ " and")) (g :: t) = _
      have p4 := goodHead_append _ " and" p3.1 p3.2
      rw [jsTrim_eq_of_space_data _ (f ++ " = $<" ++ f ++ ">" ++ " and")
        (by simp [String.data_append, List.append_assoc]) p4.2
        (goodTail_append _ " and" 'd' rfl (by decide))]
      rw [bindingsCore_acc (g :: t) (f ++ " = $<" ++ f ++ ">" ++ " and") p4.1 p4.2
        (goodTail_append _ " and" 'd' rfl (by decide))
        (fun k hk => hkeys k (List.mem_cons_of_mem f hk)) (by simp)]
      simp only [List.map_cons]
      rw [intercalate_cons₂]
      apply String.ext
      simp [String.data_append, List.append_assoc, and_space_data]

/-- Claim C8: `createWhereClause m` is the empty string exactly when the
column map `m` is empty; and for whitespace-free nonempty column names it
is `" where "` followed by the predicates `col = $<col>` joined with
`" and "` (the spec-side `whereClauseSpec`). -/
theorem createWhereClause_spec :
    (∀ m : List (String × String), createWhereClause m = "" ↔ m = [])
    ∧ (∀ m : List (String × String), (∀ p ∈ m, goodKey p.1 = true) →
        createWhereClause m = whereClauseSpec m) := by
  constructor
  · intro m
    cases m with
    | nil => simp [createWhereClause]
    | cons p rest =>
      simp only [createWhereClause, List.isEmpty_cons, Bool.false_eq_true, if_false]
      constructor
      · intro h
        have hlen := congrArg String.length h
        rw [String.length_append] at hlen
        rw [show (" where " : String).length = 7 from rfl,
          show ("" : String).length = 0 from rfl] at hlen
        omega
      · intro h
        cases h
  · intro m hkeys
    cases m with
    | nil => rfl
    | cons p rest =>
      simp only [createWhereClause, whereClauseSpec, List.isEmpty_cons, Bool.false_eq_true,
        if_false]
      congr 1
      unfold createBindingsMap
      rw [show (Option.getD (none : Option String) " and") = " and" from rfl]
      rw [bindingsCore_start ((p :: rest).map (fun q => q.1)) (by simp)
        (fun k hk => by
          obtain ⟨q, hq, rfl⟩ := List.mem_map.mp hk
          exact hkeys q hq)]
      rw [List.map_map]
      rfl

/-- Witness for C8 on a concrete two-column map, with the clause fully
evaluated. -/
theorem createWhereClause_spec_witness :
    (createWhereClause [("a", "1"), ("b", "2")] = ""
      ↔ ([("a", "1"), ("b", "2")] : List (String × String)) = [])
    ∧ createWhereClause [("a", "1"), ("b", "2")] = whereClauseSpec [("a", "1"), ("b", "2")]
    ∧ createWhereClause [("a", "1"), ("b", "2")] = " where a = $<a> and b = $<b>" :=
  ⟨createWhereClause_spec.1 _, createWhereClause_spec.2 _ (by decide), rfl⟩
